import Mathlib

/-!
Verification of the Vexa Prejoin API (src/server.py) against its specification.

The embedding below is a shallow model of the FastAPI application:

* `Store` models the SQLite table `prejoin_submissions` as a list of rows in
  insertion (rowid) order, together with the next AUTOINCREMENT id.
* `create_prejoin` models `POST /api/prejoin` (pydantic validation of the
  payload, the consent guard, email normalisation, the UNIQUE-constraint
  conflict and the insert).
* `list_prejoin` models `GET /api/prejoin` (query validation, the LIKE search
  filter, ORDER BY created_at DESC, LIMIT/OFFSET, and the COUNT(*) total).
* `export_prejoin_csv` models `GET /api/prejoin/export.csv` as the list of CSV
  records (header row followed by one 7-field record per matching row).
* `sendConfirmationEmail` / `send_test_email` model `_send_confirmation_email`
  and `POST /api/test-email`; the fallible SMTP transport is represented by an
  `SmtpOutcome` record saying which stage (connect, starttls, login, send)
  would fail and with what message.

Machine integers do not overflow in any of the modelled paths, so ids and
counts are `Nat`.  SQLite TEXT comparison (memcmp on UTF-8) is modelled by a
lexicographic comparison of character codes, and SQLite's LIKE operator by an
executable matcher that folds ASCII letters only, as SQLite does.
-/

/-- Character predicate for Python `str.strip()` on the ASCII whitespace it
removes from the strings this app handles. -/
def isPyWhite (c : Char) : Bool :=
  c = ' ' || c = '\t' || c = '\n' || c = '\r' || c.toNat = 11 || c.toNat = 12

/-- Python `str.strip()` (ASCII fragment): drop leading and trailing
whitespace. -/
def pyStrip (s : String) : String :=
  ⟨((s.data.dropWhile isPyWhite).reverse.dropWhile isPyWhite).reverse⟩

/-- ASCII lower-casing of one character, as performed by SQLite's LIKE and by
Python `str.lower()` on ASCII input. -/
def asciiLower (c : Char) : Char :=
  if 65 ≤ c.toNat ∧ c.toNat ≤ 90 then Char.ofNat (c.toNat + 32) else c

/-- Python `str.lower()` (ASCII fragment). -/
def pyLower (s : String) : String :=
  ⟨s.data.map asciiLower⟩

/-- Lexicographic less-or-equal on character codes: SQLite's BINARY collation
(memcmp) used to compare `created_at` TEXT values in ORDER BY. -/
def strLeD : List Char → List Char → Bool
  | [], _ => true
  | _ :: _, [] => false
  | a :: as, b :: bs =>
    a.toNat < b.toNat || (a.toNat == b.toNat && strLeD as bs)

/-- One row of the `prejoin_submissions` table. -/
structure Row where
  id : Nat
  full_name : String
  email : String
  consent : Nat
  created_at : String
  user_agent : String
  ip : Option String
deriving DecidableEq, Repr

/-- The table: rows in insertion (rowid) order plus the next AUTOINCREMENT
id. -/
structure Store where
  rows : List Row
  nextId : Nat
deriving DecidableEq, Repr

/-- The table right after `on_startup` created it: empty, AUTOINCREMENT
starting at 1. -/
def emptyStore : Store := { rows := [], nextId := 1 }

/-- Store well-formedness: rows are listed in insertion order with strictly
increasing ids, all below the next id to be assigned. -/
def Store.WF (st : Store) : Prop :=
  st.rows.Pairwise (fun a b => a.id < b.id) ∧ ∀ r ∈ st.rows, r.id < st.nextId

/-- The request body of `POST /api/prejoin` before validation. -/
structure PrejoinPayload where
  fullName : String
  email : String
  consent : Bool
deriving DecidableEq, Repr

/-- Outcome of `POST /api/prejoin`: pydantic rejection (422), the consent
guard (400 "Consent required"), the UNIQUE conflict (409 "Email already
registered"), or success (200 with body ok: true). -/
inductive CreateResult where
  | validationError
  | consentRequired
  | duplicateEmail
  | ok
deriving DecidableEq, Repr

/-- Email normalisation performed at insert time:
`data.email.lower().strip()`. -/
def normEmail (e : String) : String := pyStrip (pyLower e)

/-- `create_prejoin` from src/server.py.  Pydantic's
`constr(min_length=3)` rejects a short `fullName` before the handler runs;
the handler then checks consent, inserts the row (normalised email, trimmed
name, consent stored as 1/0), and maps an `IntegrityError` from the UNIQUE
email column to a 409.  `now` is the `created_at` string the store assigns,
`userAgent` and `ip` come from the request context. -/
def create_prejoin (st : Store) (p : PrejoinPayload) (userAgent : String)
    (ip : Option String) (now : String) : CreateResult × Store :=
  if p.fullName.length < 3 then (CreateResult.validationError, st)
  else if p.consent = false then (CreateResult.consentRequired, st)
  else if st.rows.any (fun r => r.email == normEmail p.email) then
    (CreateResult.duplicateEmail, st)
  else
    (CreateResult.ok,
     { rows := st.rows ++
         [{ id := st.nextId, full_name := pyStrip p.fullName,
            email := normEmail p.email,
            consent := if p.consent then 1 else 0, created_at := now,
            user_agent := userAgent, ip := ip }],
       nextId := st.nextId + 1 })

/-- SMTP configuration read from the environment by
`_send_confirmation_email`. -/
structure SmtpEnv where
  host : String
  port : Nat
  user : Option String
  password : Option String
  use_tls : Bool
  from_addr : String
deriving DecidableEq, Repr

/-- The defaults used when no SMTP_* environment variables are set. -/
def defaultSmtpEnv : SmtpEnv :=
  { host := "127.0.0.1", port := 1025, user := none, password := none,
    use_tls := true, from_addr := "noreply@vexa.local" }

/-- Which stages of one SMTP delivery attempt would raise, and with what
message.  `none` means the stage succeeds. -/
structure SmtpOutcome where
  connectError : Option String
  starttlsError : Option String
  loginError : Option String
  sendError : Option String
deriving DecidableEq, Repr

/-- The body of the try-block in `_send_confirmation_email`: connect, then
optionally STARTTLS (only when TLS is enabled and the port is 587 or 25, its
failure swallowed by an inner try/except), then optionally login (only when
both credentials are set, its failure swallowed likewise), then send.
Connection and send failures propagate out of this block. -/
def smtpAttempt (env : SmtpEnv) (out : SmtpOutcome) : Except String Unit :=
  match out.connectError with
  | some e => Except.error e
  | none =>
    let _tlsFailureSwallowed : Option String :=
      if env.use_tls && (env.port == 587 || env.port == 25)
      then out.starttlsError else none
    let _loginFailureSwallowed : Option String :=
      if env.user.isSome && env.password.isSome then out.loginError else none
    match out.sendError with
    | some e => Except.error e
    | none => Except.ok ()

/-- `_send_confirmation_email` from src/server.py: the delivery attempt
wrapped in the outer try/except that swallows every exception, so the
function always returns normally. -/
def sendConfirmationEmail (env : SmtpEnv) (out : SmtpOutcome) :
    Except String Unit :=
  match smtpAttempt env out with
  | Except.ok u => Except.ok u
  | Except.error _ => Except.ok ()

/-- True when the delivery attempt itself fails (before the swallowing): the
situation in which the spec expects the diagnostic endpoint to report a
500. -/
def deliveryFails (env : SmtpEnv) (out : SmtpOutcome) : Bool :=
  match smtpAttempt env out with
  | Except.error _ => true
  | Except.ok _ => false

/-- Response of `POST /api/test-email`: 200 with ok true, or 500 with a
detail string. -/
inductive TestEmailResult where
  | okTrue
  | serverError (detail : String)
deriving DecidableEq, Repr

/-- `send_test_email` from src/server.py: calls `_send_confirmation_email`
and maps any exception escaping it to a 500 whose detail is the exception
text. -/
def send_test_email (env : SmtpEnv) (out : SmtpOutcome) : TestEmailResult :=
  match sendConfirmationEmail env out with
  | Except.ok _ => TestEmailResult.okTrue
  | Except.error e => TestEmailResult.serverError e

/-- `create_prejoin` together with its observable interaction with the
notification machinery: after a successful insert the handler spawns a daemon
thread running `_send_confirmation_email` inside a try/except whose failure
(`spawnOk = false`) is swallowed, and the send's result is never inspected. -/
def create_prejoin_full (st : Store) (p : PrejoinPayload) (userAgent : String)
    (ip : Option String) (now : String) (env : SmtpEnv) (spawnOk : Bool)
    (out : SmtpOutcome) : CreateResult × Store :=
  match create_prejoin st p userAgent ip now with
  | (CreateResult.ok, st1) =>
    let _bg : Option (Except String Unit) :=
      if spawnOk then some (sendConfirmationEmail env out) else none
    (CreateResult.ok, st1)
  | other => other

/-- SQLite's LIKE operator on character lists (the pattern is the first
argument): `%` matches any run of characters (including the empty run), `_`
matches exactly one character, and any other pattern character matches one
text character up to ASCII case folding, which is the only folding SQLite's
LIKE performs.  A `%` is resolved by trying every split of the remaining
text. -/
def likeMatch : List Char → List Char → Bool
  | [], s => s.isEmpty
  | p :: ps, s =>
    if p = '%' then
      (List.range (s.length + 1)).any (fun k => likeMatch ps (s.drop k))
    else
      match s with
      | [] => false
      | c :: cs =>
        (if p = '_' then true else asciiLower p == asciiLower c) && likeMatch ps cs

/-- One pattern character matches one text character case-insensitively. -/
def charCI (p c : Char) : Bool := asciiLower p == asciiLower c

/-- Case-insensitive prefix test on character lists. -/
def prefixCI : List Char → List Char → Bool
  | [], _ => true
  | _ :: _, [] => false
  | p :: ps, c :: cs => charCI p c && prefixCI ps cs

/-- Case-insensitive substring test on character lists: the spec's wording of
the search predicate ("a substring (case-insensitive) of either fullName or
email"). -/
def substrCI (n : List Char) : List Char → Bool
  | [] => prefixCI n []
  | c :: h => prefixCI n (c :: h) || substrCI n h

/-- The search term contains neither LIKE wildcard. -/
def noWild (t : List Char) : Prop := ∀ c ∈ t, ¬(c = '%') ∧ ¬(c = '_')

/-- The search predicate exactly as the spec words it: an empty term matches
everything, otherwise the term must be a case-insensitive substring of
fullName or of email.  Written from the spec, to be compared with the
LIKE-based predicate the code implements. -/
def specMatches (search : String) (r : Row) : Bool :=
  search.data.isEmpty || substrCI search.data r.full_name.data ||
    substrCI search.data r.email.data

/-- `search = (q or "").strip()` applied to the optional `q` query
parameter. -/
def searchOf (q : Option String) : String := pyStrip (q.getD "")

/-- The WHERE clause of `list_prejoin` and `export_prejoin_csv`: with an
empty search term there is no clause and every row matches; otherwise the
row matches when `full_name LIKE ? OR email LIKE ?` holds for the pattern
`f"%{search}%"` — the term is interpolated into the LIKE pattern without
escaping. -/
def rowMatches (search : String) (r : Row) : Bool :=
  if search.data.isEmpty then true
  else
    likeMatch ('%' :: (search.data ++ ['%'])) r.full_name.data ||
      likeMatch ('%' :: (search.data ++ ['%'])) r.email.data

/-- Insert a row into a list already sorted by created_at descending,
placing it before the first row whose created_at is not greater — the
insertion step of a stable descending sort. -/
def descInsert (x : Row) : List Row → List Row
  | [] => [x]
  | b :: l =>
    if strLeD b.created_at.data x.created_at.data then x :: b :: l
    else b :: descInsert x l

/-- `ORDER BY created_at DESC` over the table scanned in rowid order: a
stable sort by created_at descending, so rows with equal created_at keep
their relative (insertion) order, which is how SQLite's sorter behaves on
this query. -/
def sortCreatedDesc : List Row → List Row
  | [] => []
  | x :: xs => descInsert x (sortCreatedDesc xs)

/-- The full ordered result set of the shared SELECT: WHERE filter then
ORDER BY created_at DESC. -/
def matchingRows (st : Store) (search : String) : List Row :=
  sortCreatedDesc (st.rows.filter (fun r => rowMatches search r))

/-- The JSON body returned by `GET /api/prejoin`. -/
structure ListResponse where
  items : List Row
  page : Nat
  pageSize : Nat
  total : Nat
deriving DecidableEq, Repr

/-- `list_prejoin` from src/server.py: FastAPI's Query constraints
(`page ≥ 1`, `1 ≤ limit ≤ 100`) reject out-of-range values before the
handler runs (modelled as `none`); the handler then runs COUNT(*) for the
total and the SELECT with `LIMIT limit OFFSET (page - 1) * limit`. -/
def list_prejoin (st : Store) (page limit : Nat) (q : Option String) :
    Option ListResponse :=
  if page < 1 || limit < 1 || 100 < limit then none
  else
    some { items := ((matchingRows st (searchOf q)).drop ((page - 1) * limit)).take limit,
           page := page, pageSize := limit,
           total := (st.rows.filter (fun r => rowMatches (searchOf q) r)).length }

/-- The fixed CSV header row. -/
def csvHeader : List String :=
  ["id", "full_name", "email", "consent", "created_at", "user_agent", "ip"]

/-- One CSV record: the seven fields the export writes for a row (a NULL ip
is written as the empty field by the csv writer). -/
def rowToCsv (r : Row) : List String :=
  [toString r.id, r.full_name, r.email, toString r.consent, r.created_at,
   r.user_agent, r.ip.getD ""]

/-- `export_prejoin_csv` from src/server.py as the list of CSV records it
streams: the header followed by one record per row of the same filtered,
created_at-descending SELECT as the listing, unpaginated. -/
def export_prejoin_csv (st : Store) (q : Option String) : List (List String) :=
  csvHeader :: (matchingRows st (searchOf q)).map rowToCsv

/-- The ordering the query actually produces: created_at descending, and
rows with equal created_at in insertion order, i.e. ascending id. -/
def tieKey (a b : Row) : Prop :=
  strLeD b.created_at.data a.created_at.data = true ∧
  (a.created_at = b.created_at → a.id < b.id)

/-- The items of one listing page (empty when the parameters are
rejected). -/
def pageItems (st : Store) (q : Option String) (k i : Nat) : List Row :=
  match list_prejoin st i k q with
  | some resp => resp.items
  | none => []

/-! ## Concrete inputs used by witnesses and counterexamples -/

/-- An SMTP outcome in which the connection itself is refused. -/
def connectRefused : SmtpOutcome :=
  { connectError := some "connection refused", starttlsError := none,
    loginError := none, sendError := none }

/-- Payload whose raw fullName has 3 characters but trims to 2. -/
def pC4 : PrejoinPayload := { fullName := "ab ", email := "c@d.e", consent := true }

/-- A well-formed payload used by witnesses. -/
def pC4w : PrejoinPayload := { fullName := "abc", email := "c@d.e", consent := true }

/-- The store after inserting pC4w into the empty store. -/
def stC4w : Store :=
  { rows := [{ id := 1, full_name := "abc", email := "c@d.e", consent := 1,
               created_at := "2024-01-01T00:00:00Z", user_agent := "",
               ip := none }],
    nextId := 2 }

/-- First C5 payload: upper case and trailing blank in the email. -/
def pC5a : PrejoinPayload :=
  { fullName := "Jane Doe", email := "A@Example.com ", consent := true }

/-- Second C5 payload: same email after normalisation. -/
def pC5b : PrejoinPayload :=
  { fullName := "Jane Roe", email := "a@example.com", consent := true }

/-- The store after inserting pC5a into the empty store. -/
def stC5 : Store :=
  { rows := [{ id := 1, full_name := "Jane Doe", email := "a@example.com",
               consent := 1, created_at := "2024-01-01T00:00:00Z",
               user_agent := "", ip := none }],
    nextId := 2 }

/-- A payload with consent withheld. -/
def pC7 : PrejoinPayload := { fullName := "Jane Doe", email := "j@d.e", consent := false }

/-- First row of a pair sharing one created_at value. -/
def rTie1 : Row :=
  { id := 1, full_name := "Ann A", email := "ann@e.x", consent := 1,
    created_at := "2024-01-01T00:00:00Z", user_agent := "", ip := none }

/-- Second row of the pair: same created_at, larger id. -/
def rTie2 : Row :=
  { id := 2, full_name := "Bob B", email := "bob@e.x", consent := 1,
    created_at := "2024-01-01T00:00:00Z", user_agent := "", ip := none }

/-- A store holding the two tied rows in insertion order. -/
def stTie : Store := { rows := [rTie1, rTie2], nextId := 3 }

/-- The listing response for page 1 of the tied store. -/
def respTie : ListResponse :=
  { items := [rTie1, rTie2], page := 1, pageSize := 20, total := 2 }

/-- A row whose full_name is matched by the wildcard pattern of the term
"a_c" though the term is not a literal substring of any of its fields. -/
def rWild : Row :=
  { id := 1, full_name := "abc", email := "w@x.y", consent := 1,
    created_at := "2024-01-01T00:00:00Z", user_agent := "", ip := none }

/-- A store holding only that row. -/
def stWild : Store := { rows := [rWild], nextId := 2 }

/-- The listing response for the term "a_c" on that store. -/
def respWild : ListResponse :=
  { items := [rWild], page := 1, pageSize := 20, total := 1 }

/-- Three rows with strictly increasing created_at, for pagination and
export witnesses. -/
def rP1 : Row :=
  { id := 1, full_name := "Alice", email := "alice@e.x", consent := 1,
    created_at := "2024-01-01T00:00:00Z", user_agent := "", ip := none }

/-- Second pagination row. -/
def rP2 : Row :=
  { id := 2, full_name := "Beth", email := "beth@e.x", consent := 1,
    created_at := "2024-01-02T00:00:00Z", user_agent := "", ip := none }

/-- Third pagination row. -/
def rP3 : Row :=
  { id := 3, full_name := "Cara", email := "cara@e.x", consent := 1,
    created_at := "2024-01-03T00:00:00Z", user_agent := "", ip := none }

/-- The three-row store in insertion order. -/
def stPag : Store := { rows := [rP1, rP2, rP3], nextId := 4 }

/-- Page 1 (pageSize 20) of the three-row store: all rows, newest first. -/
def respPag : ListResponse :=
  { items := [rP3, rP2, rP1], page := 1, pageSize := 20, total := 3 }

/-! ## C1 -/

/-- Claim C1 (code_bug): the spec requires the diagnostic test-email endpoint
to answer a 500 with a non-empty detail whenever the delivery attempt fails
at any stage, and ok only on success.  In the code
`_send_confirmation_email` swallows every exception before `send_test_email`
can observe it, so the endpoint's 500 branch is unreachable: it answers
ok for every outcome, in particular for a refused connection. -/
theorem C1_test_email_swallows_failures :
    deliveryFails defaultSmtpEnv connectRefused = true ∧
    send_test_email defaultSmtpEnv connectRefused = TestEmailResult.okTrue ∧
    ∀ (env : SmtpEnv) (out : SmtpOutcome),
      send_test_email env out = TestEmailResult.okTrue := by
  refine ⟨rfl, rfl, ?_⟩
  intro env out
  unfold send_test_email sendConfirmationEmail
  cases smtpAttempt env out <;> rfl

/-! ## C7 -/

/-- Claim C7 (confirmed): with consent = false the submission never touches
the store, and (for a payload that passes schema validation) the result is
the ConsentRequired rejection mapped to a 400. -/
theorem C7_consent_false_rejected (st : Store) (p : PrejoinPayload)
    (ua : String) (ip : Option String) (now : String)
    (hc : p.consent = false) :
    (create_prejoin st p ua ip now).2 = st ∧
    (3 ≤ p.fullName.length →
      (create_prejoin st p ua ip now).1 = CreateResult.consentRequired) := by
  constructor
  · by_cases h3 : p.fullName.length < 3 <;> simp [create_prejoin, h3, hc]
  · intro h3
    simp [create_prejoin, hc, Nat.not_lt.mpr h3]

/-- Witness for C7 at a concrete payload. -/
theorem C7_witness :
    pC7.consent = false ∧
    ((create_prejoin emptyStore pC7 "" none "2024-01-01T00:00:00Z").2 = emptyStore ∧
     (3 ≤ pC7.fullName.length →
       (create_prejoin emptyStore pC7 "" none "2024-01-01T00:00:00Z").1 =
         CreateResult.consentRequired)) :=
  ⟨rfl, C7_consent_false_rejected emptyStore pC7 "" none "2024-01-01T00:00:00Z" rfl⟩

/-! ## C8 -/

/-- Claim C8 (confirmed): the response and the resulting store of a
submission are identical whatever the notification machinery does — whether
the detached send succeeds, fails at any SMTP stage, or cannot even be
spawned — and coincide with the pure submission semantics. -/
theorem C8_notification_never_observed (st : Store) (p : PrejoinPayload)
    (ua : String) (ip : Option String) (now : String)
    (env1 env2 : SmtpEnv) (s1 s2 : Bool) (o1 o2 : SmtpOutcome) :
    create_prejoin_full st p ua ip now env1 s1 o1 = create_prejoin st p ua ip now ∧
    create_prejoin_full st p ua ip now env1 s1 o1 =
      create_prejoin_full st p ua ip now env2 s2 o2 := by
  have h : ∀ (env : SmtpEnv) (s : Bool) (o : SmtpOutcome),
      create_prejoin_full st p ua ip now env s o = create_prejoin st p ua ip now := by
    intro env s o
    unfold create_prejoin_full
    rcases hcp : create_prejoin st p ua ip now with ⟨r, s1⟩
    cases r <;> rfl
  exact ⟨h env1 s1 o1, by rw [h env1 s1 o1, h env2 s2 o2]⟩

/-! ## C10 -/

/-- Every row of the store records consent as the integer 1. -/
def AllConsentOne (st : Store) : Prop := ∀ r ∈ st.rows, r.consent = 1

/-- Claim C10 (confirmed): the invariant that every stored row has
consent = 1 holds of the freshly created table and is preserved by the
submission operation (the read-only operations do not modify the store). -/
theorem C10_consent_one_invariant (st : Store) (p : PrejoinPayload)
    (ua : String) (ip : Option String) (now : String)
    (h : AllConsentOne st) :
    AllConsentOne emptyStore ∧
    AllConsentOne (create_prejoin st p ua ip now).2 := by
  constructor
  · intro r hr
    simp [emptyStore] at hr
  · by_cases h3 : p.fullName.length < 3
    · simpa [create_prejoin, h3] using h
    by_cases hc : p.consent = false
    · simpa [create_prejoin, h3, hc] using h
    by_cases hd : st.rows.any (fun r => r.email == normEmail p.email)
    · simpa [create_prejoin, h3, hc, hd] using h
    · intro r hr
      simp [create_prejoin, h3, hc, hd, AllConsentOne] at hr ⊢
      rcases hr with hr | hr
      · exact h r hr
      · simp [hr]

/-- Witness for C10 at a concrete store and payload. -/
theorem C10_witness :
    AllConsentOne emptyStore ∧
    (AllConsentOne emptyStore ∧
     AllConsentOne (create_prejoin emptyStore pC4w "" none "2024-01-01T00:00:00Z").2) := by
  have h0 : AllConsentOne emptyStore := by
    intro r hr
    simp [emptyStore] at hr
  exact ⟨h0, C10_consent_one_invariant emptyStore pC4w "" none "2024-01-01T00:00:00Z" h0⟩

/-! ## C4 -/

/-- Counterexample to claim C4: the payload whose raw fullName is "ab " (3
characters) passes validation, yet the persisted full_name is the trimmed
"ab" of length 2 — an input whose trimmed fullName is shorter than 3
characters is persisted. -/
theorem C4_counterexample :
    (create_prejoin emptyStore pC4 "" none "2024-01-01T00:00:00Z").1 =
      CreateResult.ok ∧
    (create_prejoin emptyStore pC4 "" none "2024-01-01T00:00:00Z").2.rows.map
      (fun r => r.full_name) = ["ab"] ∧
    (pyStrip pC4.fullName).length = 2 := by
  decide

/-- Claim C4 as amended: the minimum-length check applies to the raw
fullName before trimming (an accepted submission has an untrimmed fullName of
at least 3 characters), and the persisted full_name is the trimmed value,
which may be shorter than 3 characters. -/
theorem C4_amended_raw_length (st : Store) (p : PrejoinPayload) (ua : String)
    (ip : Option String) (now : String) (st1 : Store)
    (h : create_prejoin st p ua ip now = (CreateResult.ok, st1)) :
    3 ≤ p.fullName.length ∧
    st1.rows.map (fun r => r.full_name) =
      st.rows.map (fun r => r.full_name) ++ [pyStrip p.fullName] := by
  by_cases h3 : p.fullName.length < 3
  · simp [create_prejoin, h3] at h
  by_cases hc : p.consent = false
  · simp [create_prejoin, h3, hc] at h
  by_cases hd : st.rows.any (fun r => r.email == normEmail p.email)
  · simp [create_prejoin, h3, hc, hd] at h
  · refine ⟨by omega, ?_⟩
    simp [create_prejoin, h3, hc, hd, Prod.ext_iff] at h
    rw [← h]
    simp

/-- Witness for the amended C4 at a concrete accepted payload. -/
theorem C4_witness :
    create_prejoin emptyStore pC4w "" none "2024-01-01T00:00:00Z" =
      (CreateResult.ok, stC4w) ∧
    (3 ≤ pC4w.fullName.length ∧
     stC4w.rows.map (fun r => r.full_name) =
       emptyStore.rows.map (fun r => r.full_name) ++ [pyStrip pC4w.fullName]) :=
  ⟨by decide,
   C4_amended_raw_length emptyStore pC4w "" none "2024-01-01T00:00:00Z" stC4w
     (by decide)⟩

/-! ## C5 -/

/-- Claim C5 (confirmed): after a successful submission, any second
submission whose email agrees after normalisation (lower-casing and
trimming) is answered with the DuplicateEmail conflict (mapped to a 409),
the store is unchanged by the failed attempt, and it holds exactly one row
for that normalised email. -/
theorem C5_duplicate_second_attempt (st : Store) (p1 p2 : PrejoinPayload)
    (ua1 ua2 : String) (ip1 ip2 : Option String) (t1 t2 : String) (st1 : Store)
    (hlen : 3 ≤ p2.fullName.length) (hcons : p2.consent = true)
    (hnorm : normEmail p2.email = normEmail p1.email)
    (h : create_prejoin st p1 ua1 ip1 t1 = (CreateResult.ok, st1)) :
    create_prejoin st1 p2 ua2 ip2 t2 = (CreateResult.duplicateEmail, st1) ∧
    (st1.rows.filter (fun r => r.email == normEmail p1.email)).length = 1 := by
  by_cases h3 : p1.fullName.length < 3
  · simp [create_prejoin, h3] at h
  by_cases hc : p1.consent = false
  · simp [create_prejoin, h3, hc] at h
  by_cases hd : st.rows.any (fun r => r.email == normEmail p1.email)
  · simp [create_prejoin, h3, hc, hd] at h
  · simp [create_prejoin, h3, hc, hd, Prod.ext_iff] at h
    have hempty : st.rows.filter (fun r => r.email == normEmail p1.email) = [] := by
      rw [List.filter_eq_nil_iff]
      intro a ha hcontra
      exact hd (List.any_eq_true.mpr ⟨a, ha, hcontra⟩)
    constructor
    · have hany : st1.rows.any (fun r => r.email == normEmail p2.email) = true := by
        rw [← h, hnorm]
        simp [List.any_append]
      simp [create_prejoin, Nat.not_lt.mpr hlen, hcons, hany]
    · rw [← h]
      simp [List.filter_append, hempty]

/-- Witness for C5: the spec's own example pair, an upper-cased email with a
trailing blank followed by its lower-cased form. -/
theorem C5_witness :
    3 ≤ pC5b.fullName.length ∧ pC5b.consent = true ∧
    normEmail pC5b.email = normEmail pC5a.email ∧
    create_prejoin emptyStore pC5a "" none "2024-01-01T00:00:00Z" =
      (CreateResult.ok, stC5) ∧
    (create_prejoin stC5 pC5b "" none "2024-01-02T00:00:00Z" =
       (CreateResult.duplicateEmail, stC5) ∧
     (stC5.rows.filter (fun r => r.email == normEmail pC5a.email)).length = 1) :=
  ⟨by decide, rfl, by decide, by decide,
   C5_duplicate_second_attempt emptyStore pC5a pC5b "" "" none none
     "2024-01-01T00:00:00Z" "2024-01-02T00:00:00Z" stC5
     (by decide) rfl (by decide) (by decide)⟩

/-! ## Ordering lemmas -/

/-- Byte-order comparison is reflexive. -/
theorem strLeD_refl : ∀ a : List Char, strLeD a a = true := by
  intro a
  induction a with
  | nil => rfl
  | cons x xs ih => simp [strLeD, ih]

/-- Byte-order comparison is transitive. -/
theorem strLeD_trans : ∀ a b c, strLeD a b = true → strLeD b c = true →
    strLeD a c = true := by
  intro a
  induction a with
  | nil => intro b c _ _; rfl
  | cons x xs ih =>
    intro b c hab hbc
    cases b with
    | nil => simp [strLeD] at hab
    | cons y ys =>
      cases c with
      | nil => simp [strLeD] at hbc
      | cons z zs =>
        simp only [strLeD, Bool.or_eq_true, Bool.and_eq_true,
          decide_eq_true_eq, beq_iff_eq] at hab hbc ⊢
        rcases hab with h | ⟨he, hr⟩ <;> rcases hbc with h2 | ⟨he2, hr2⟩
        · left; omega
        · left; omega
        · left; omega
        · right; exact ⟨by omega, ih ys zs hr hr2⟩

/-- Byte-order comparison is total. -/
theorem strLeD_total : ∀ a b, strLeD a b = true ∨ strLeD b a = true := by
  intro a
  induction a with
  | nil => intro b; left; rfl
  | cons x xs ih =>
    intro b
    cases b with
    | nil => right; rfl
    | cons y ys =>
      simp only [strLeD, Bool.or_eq_true, Bool.and_eq_true,
        decide_eq_true_eq, beq_iff_eq]
      rcases Nat.lt_trichotomy x.toNat y.toNat with h | h | h
      · left; left; exact h
      · rcases ih ys with h2 | h2
        · left; right; exact ⟨h, h2⟩
        · right; right; exact ⟨h.symm, h2⟩
      · right; left; exact h

/-- Membership in a descending insertion. -/
theorem mem_descInsert (x c : Row) : ∀ l, c ∈ descInsert x l ↔ c = x ∨ c ∈ l := by
  intro l
  induction l with
  | nil => simp [descInsert]
  | cons b l ih =>
    simp only [descInsert]
    split
    · simp [List.mem_cons]
    · simp only [List.mem_cons, ih]
      tauto

/-- Descending insertion permutes the inserted element onto the list. -/
theorem descInsert_perm (x : Row) : ∀ l, List.Perm (descInsert x l) (x :: l) := by
  intro l
  induction l with
  | nil => exact List.Perm.refl _
  | cons b l ih =>
    simp only [descInsert]
    split
    · exact List.Perm.refl _
    · exact (List.Perm.cons b ih).trans (List.Perm.swap x b l)

/-- The stable descending sort is a permutation of its input. -/
theorem sortCreatedDesc_perm : ∀ l, List.Perm (sortCreatedDesc l) l := by
  intro l
  induction l with
  | nil => exact List.Perm.refl _
  | cons x xs ih =>
    simp only [sortCreatedDesc]
    exact (descInsert_perm x _).trans (List.Perm.cons x ih)

/-- Inserting a row whose id is below every id in a tieKey-ordered list
keeps the list tieKey-ordered. -/
theorem descInsert_pairwise (x : Row) :
    ∀ l, l.Pairwise tieKey → (∀ b ∈ l, x.id < b.id) →
      (descInsert x l).Pairwise tieKey := by
  intro l
  induction l with
  | nil => intro _ _; simp [descInsert]
  | cons b l ih =>
    intro hp hid
    rw [List.pairwise_cons] at hp
    obtain ⟨hb, hl⟩ := hp
    simp only [descInsert]
    split
    · rename_i hcmp
      rw [List.pairwise_cons]
      refine ⟨?_, List.pairwise_cons.mpr ⟨hb, hl⟩⟩
      intro c hc
      rcases List.mem_cons.mp hc with rfl | hcmem
      · exact ⟨hcmp, fun _ => hid c (List.mem_cons_self c l)⟩
      · exact ⟨strLeD_trans _ _ _ (hb c hcmem).1 hcmp,
          fun _ => hid c (List.mem_cons_of_mem b hcmem)⟩
    · rename_i hcmp
      rw [List.pairwise_cons]
      constructor
      · intro c hc
        rcases (mem_descInsert x c l).mp hc with rfl | hcmem
        · refine ⟨?_, ?_⟩
          · rcases strLeD_total b.created_at.data c.created_at.data with h | h
            · exact absurd h hcmp
            · exact h
          · intro he
            exact absurd (by rw [he]; exact strLeD_refl _) hcmp
        · exact hb c hcmem
      · exact ih hl (fun b2 hb2 => hid b2 (List.mem_cons_of_mem b hb2))

/-- Sorting a list whose ids strictly increase (the insertion order of the
table scan) yields a list ordered by created_at descending with ties in
ascending id order. -/
theorem sortCreatedDesc_pairwise :
    ∀ l : List Row, l.Pairwise (fun a b => a.id < b.id) →
      (sortCreatedDesc l).Pairwise tieKey := by
  intro l
  induction l with
  | nil => intro _; simp [sortCreatedDesc]
  | cons x xs ih =>
    intro hp
    rw [List.pairwise_cons] at hp
    simp only [sortCreatedDesc]
    apply descInsert_pairwise
    · exact ih hp.2
    · intro b hb
      exact hp.1 b (((sortCreatedDesc_perm xs).mem_iff).mp hb)

/-! ## C2 -/

/-- Counterexample to claim C2: the query has no id tie-break, and SQLite's
stable sort leaves rows with equal created_at in insertion order, so the
smaller id comes first — the listing of the tied store returns ids [1, 2],
violating the claimed larger-id-first tie-break. -/
theorem C2_counterexample :
    list_prejoin stTie 1 20 none = some respTie ∧
    respTie.items.map (fun r => r.id) = [1, 2] ∧
    rTie1.created_at = rTie2.created_at ∧
    ¬ respTie.items.Pairwise (fun a b =>
        strLeD b.created_at.data a.created_at.data = true ∧
        (a.created_at = b.created_at → b.id < a.id)) := by
  refine ⟨by decide, by decide, by decide, by decide⟩

/-- Claim C2 as amended: listing and export order rows by created_at
descending, and rows with equal created_at appear in insertion order — the
smaller store-assigned id first, not the larger.  The order is total on any
well-formed store and, being a pure function of the data, is stable across
repeated calls; the export serialises exactly that ordered sequence. -/
theorem C2_amended_stable_order (st : Store) (page limit : Nat)
    (q : Option String) (resp : ListResponse)
    (hwf : st.rows.Pairwise (fun a b => a.id < b.id))
    (h : list_prejoin st page limit q = some resp) :
    resp.items.Pairwise tieKey ∧
    (matchingRows st (searchOf q)).Pairwise tieKey ∧
    (export_prejoin_csv st q).tail = (matchingRows st (searchOf q)).map rowToCsv := by
  have hm : (matchingRows st (searchOf q)).Pairwise tieKey :=
    sortCreatedDesc_pairwise _ (List.Pairwise.sublist (List.filter_sublist _) hwf)
  simp [list_prejoin] at h
  obtain ⟨-, hresp⟩ := h
  refine ⟨?_, hm, rfl⟩
  rw [← hresp]
  exact List.Pairwise.sublist
    ((List.take_sublist _ _).trans (List.drop_sublist _ _)) hm

/-- Witness for the amended C2 at the tied store. -/
theorem C2_witness :
    stTie.rows.Pairwise (fun a b => a.id < b.id) ∧
    list_prejoin stTie 1 20 none = some respTie ∧
    (respTie.items.Pairwise tieKey ∧
     (matchingRows stTie (searchOf none)).Pairwise tieKey ∧
     (export_prejoin_csv stTie none).tail =
       (matchingRows stTie (searchOf none)).map rowToCsv) :=
  ⟨by decide, by decide,
   C2_amended_stable_order stTie 1 20 none respTie (by decide) (by decide)⟩

/-! ## C3 -/

instance (t : List Char) : Decidable (noWild t) :=
  List.decidableBAll _ t

/-- A wildcard-free pattern followed by a trailing % matches exactly the
texts of which it is a case-insensitive prefix. -/
theorem likeMatch_append_percent :
    ∀ t : List Char, noWild t →
      ∀ s, likeMatch (t ++ ['%']) s = prefixCI t s := by
  intro t
  induction t with
  | nil =>
    intro _ s
    simp only [List.nil_append, likeMatch, prefixCI, if_pos]
    rw [List.any_eq_true]
    exact ⟨s.length, List.mem_range.mpr (Nat.lt_succ_self _), by simp [likeMatch]⟩
  | cons p t ih =>
    intro hw s
    have hp := hw p (List.mem_cons_self p t)
    have hw2 : noWild t := fun c hc => hw c (List.mem_cons_of_mem p hc)
    cases s with
    | nil =>
      simp only [List.cons_append, likeMatch, prefixCI]
      rw [if_neg hp.1]
    | cons c cs =>
      simp only [List.cons_append, likeMatch, prefixCI, charCI]
      rw [if_neg hp.1, if_neg hp.2]
      congr 1
      exact ih hw2 cs

/-- The substring test tried at every suffix, as a single scan. -/
theorem substrCI_eq_any (t : List Char) :
    ∀ s, substrCI t s =
      (List.range (s.length + 1)).any (fun k => prefixCI t (s.drop k)) := by
  intro s
  induction s with
  | nil =>
    simp only [substrCI, List.length_nil, Nat.zero_add]
    rw [show List.range 1 = [0] from rfl]
    simp
  | cons c cs ih =>
    simp only [substrCI, List.length_cons]
    rw [List.range_succ_eq_map, List.any_cons, List.any_map]
    simp only [List.drop_zero]
    rw [ih]
    congr 1

/-- For a wildcard-free term, the LIKE pattern %term% matches exactly the
texts containing the term as a case-insensitive substring. -/
theorem likeMatch_percent_wrap (t : List Char) (hw : noWild t) (s : List Char) :
    likeMatch ('%' :: (t ++ ['%'])) s = substrCI t s := by
  simp only [likeMatch, if_pos]
  rw [substrCI_eq_any]
  congr 1
  funext k
  exact likeMatch_append_percent t hw _

/-- Counterexample to claim C3: the term "a_c" is not a case-insensitive
substring of "abc" or of "w@x.y", yet the listing includes the row whose
full_name is "abc", because the unescaped underscore acts as a one-character
wildcard inside the LIKE pattern. -/
theorem C3_counterexample :
    list_prejoin stWild 1 20 (some "a_c") = some respWild ∧
    specMatches "a_c" rWild = false ∧
    pyStrip "a_c" = "a_c" := by
  refine ⟨by decide, by decide, by decide⟩

/-- Claim C3 as amended: a row is listed/exported exactly when the stripped
term LIKE-matches full_name or email; the term is interpolated into the
pattern %term% without escaping, so % and _ in it act as wildcards, and only
for wildcard-free terms does the filter coincide with the spec's
case-insensitive literal substring predicate (ASCII case folding, as SQLite's
LIKE performs); an empty or absent term matches every row. -/
theorem C3_amended_like_semantics (st : Store) (q : Option String) (r : Row)
    (hr : r ∈ st.rows) (hw : noWild (searchOf q).data) :
    (r ∈ matchingRows st (searchOf q) ↔ rowMatches (searchOf q) r = true) ∧
    rowMatches (searchOf q) r = specMatches (searchOf q) r ∧
    (searchOf q = "" → rowMatches (searchOf q) r = true) := by
  refine ⟨?_, ?_, ?_⟩
  · constructor
    · intro hm
      have hmem : r ∈ st.rows.filter (fun r => rowMatches (searchOf q) r) :=
        ((sortCreatedDesc_perm _).mem_iff).mp hm
      exact (List.mem_filter.mp hmem).2
    · intro hmatch
      exact ((sortCreatedDesc_perm _).mem_iff).mpr
        (List.mem_filter.mpr ⟨hr, hmatch⟩)
  · by_cases he : (searchOf q).data.isEmpty
    · simp [rowMatches, specMatches, he]
    · simp only [rowMatches, specMatches, if_neg he]
      rw [likeMatch_percent_wrap _ hw, likeMatch_percent_wrap _ hw]
      simp [he]
  · intro hq
    simp [rowMatches, hq]

/-- Witness for the amended C3 at a wildcard-free term. -/
theorem C3_witness :
    rWild ∈ stWild.rows ∧ noWild (searchOf (some "ab")).data ∧
    ((rWild ∈ matchingRows stWild (searchOf (some "ab")) ↔
        rowMatches (searchOf (some "ab")) rWild = true) ∧
     rowMatches (searchOf (some "ab")) rWild =
       specMatches (searchOf (some "ab")) rWild ∧
     (searchOf (some "ab") = "" →
       rowMatches (searchOf (some "ab")) rWild = true)) :=
  ⟨by decide, by decide,
   C3_amended_like_semantics stWild (some "ab") rWild (by decide) (by decide)⟩

/-! ## C6 -/

/-- With in-range parameters the listing handler returns the window of the
ordered result set at offset (page - 1) * limit, together with the COUNT(*)
total. -/
theorem list_prejoin_pos (st : Store) (page limit : Nat) (q : Option String)
    (h1 : 1 ≤ page) (h2 : 1 ≤ limit) (h3 : limit ≤ 100) :
    list_prejoin st page limit q =
      some { items := ((matchingRows st (searchOf q)).drop ((page - 1) * limit)).take limit,
             page := page, pageSize := limit,
             total := (st.rows.filter (fun r => rowMatches (searchOf q) r)).length } := by
  have hc : ¬((page < 1 || limit < 1 || 100 < limit) = true) := by
    simp only [Bool.or_eq_true, decide_eq_true_eq, not_or, Nat.not_lt]
    exact ⟨⟨h1, h2⟩, h3⟩
  simp only [list_prejoin, hc, if_false]
  rfl

/-- Concatenating the ceil(length/k) chunks of size k of any list, taken at
offsets 0, k, 2k, …, rebuilds the list. -/
theorem chunks_concat {α : Type} (k : Nat) (hk : 1 ≤ k) :
    ∀ (n : Nat) (l : List α), (l.length + k - 1) / k = n →
      (List.range n).flatMap (fun i => (l.drop (i * k)).take k) = l := by
  intro n
  induction n with
  | zero =>
    intro l h
    have hlen : l.length = 0 := by
      by_contra h0
      have h1 : 1 * k ≤ l.length + k - 1 := by omega
      have h2 := (Nat.le_div_iff_mul_le (by omega : 0 < k)).mpr h1
      omega
    rw [List.length_eq_zero.mp hlen]
    rfl
  | succ n ih =>
    intro l h
    have hpos : 1 ≤ l.length := by
      by_contra h0
      have hlen : l.length = 0 := by omega
      rw [hlen] at h
      have hz : (0 + k - 1) / k = 0 := Nat.div_eq_of_lt (by omega)
      omega
    have hsplit : (l.length + k - 1) / k = (l.length - 1) / k + 1 := by
      have he : l.length + k - 1 = (l.length - 1) + k := by omega
      rw [he, Nat.add_div_right _ (by omega)]
    have hn : (l.length - 1) / k = n := by omega
    have hstep : ((l.drop k).length + k - 1) / k = n := by
      rw [List.length_drop]
      by_cases hlk : l.length ≤ k
      · have h0 : l.length - k = 0 := by omega
        rw [h0]
        have hz : (0 + k - 1) / k = 0 := Nat.div_eq_of_lt (by omega)
        have hsmall : (l.length - 1) / k = 0 := Nat.div_eq_of_lt (by omega)
        omega
      · have he : l.length - k + k - 1 = (l.length - k - 1) + k := by omega
        rw [he, Nat.add_div_right _ (by omega)]
        have he2 : l.length - 1 = (l.length - k - 1) + k := by omega
        rw [he2, Nat.add_div_right _ (by omega)] at hn
        omega
    calc (List.range (n + 1)).flatMap (fun i => (l.drop (i * k)).take k)
        = (l.drop (0 * k)).take k ++
            (List.range n).flatMap (fun i => (l.drop (Nat.succ i * k)).take k) := by
          rw [List.range_succ_eq_map, List.flatMap_cons, List.flatMap_map]
      _ = l.take k ++
            (List.range n).flatMap (fun i => (((l.drop k).drop (i * k)).take k)) := by
          congr 1
          · rw [Nat.zero_mul, List.drop_zero]
          · congr 1
            funext i
            congr 1
            rw [List.drop_drop]
            congr 1
            rw [Nat.succ_mul, Nat.add_comm]
      _ = l.take k ++ l.drop k := by rw [ih (l.drop k) hstep]
      _ = l := List.take_append_drop k l

/-- Claim C6 (confirmed): for any store, term and page size k in [1, 100],
iterating pages 1..ceil(N/k) of the listing yields only non-empty pages of
at most k items, each reporting the total N of matching rows, and the
concatenation of the pages is exactly the full ordered result set, which is
a permutation of the filtered rows — no matching record is repeated or
skipped. -/
theorem C6_pagination_partition (st : Store) (q : Option String) (k : Nat)
    (hk1 : 1 ≤ k) (hk2 : k ≤ 100) :
    (∀ i, i < ((matchingRows st (searchOf q)).length + k - 1) / k →
       ∃ resp, list_prejoin st (i + 1) k q = some resp ∧
         resp.items ≠ [] ∧ resp.items.length ≤ k ∧
         resp.total = (matchingRows st (searchOf q)).length) ∧
    (List.range (((matchingRows st (searchOf q)).length + k - 1) / k)).flatMap
        (fun i => pageItems st q k (i + 1)) = matchingRows st (searchOf q) ∧
    List.Perm (matchingRows st (searchOf q))
      (st.rows.filter (fun r => rowMatches (searchOf q) r)) := by
  have hperm : List.Perm (matchingRows st (searchOf q))
      (st.rows.filter (fun r => rowMatches (searchOf q) r)) :=
    sortCreatedDesc_perm _
  have htotal : (st.rows.filter (fun r => rowMatches (searchOf q) r)).length =
      (matchingRows st (searchOf q)).length := (hperm.length_eq).symm
  have hpage : ∀ i : Nat, pageItems st q k (i + 1) =
      ((matchingRows st (searchOf q)).drop (i * k)).take k := by
    intro i
    unfold pageItems
    rw [list_prejoin_pos st (i + 1) k q (by omega) hk1 hk2]
    simp [Nat.add_sub_cancel]
  refine ⟨?_, ?_, hperm⟩
  · intro i hi
    refine ⟨_, list_prejoin_pos st (i + 1) k q (by omega) hk1 hk2, ?_, ?_, ?_⟩
    · show ((matchingRows st (searchOf q)).drop ((i + 1 - 1) * k)).take k ≠ []
      have hi2 : i + 1 ≤ ((matchingRows st (searchOf q)).length + k - 1) / k := hi
      have hmul : (i + 1) * k ≤ (matchingRows st (searchOf q)).length + k - 1 :=
        (Nat.le_div_iff_mul_le (by omega : 0 < k)).mp hi2
      have hik : i * k < (matchingRows st (searchOf q)).length := by
        rw [Nat.succ_mul] at hmul
        omega
      refine List.ne_nil_of_length_pos ?_
      rw [List.length_take, List.length_drop]
      have he : i + 1 - 1 = i := by omega
      rw [he]
      omega
    · show (((matchingRows st (searchOf q)).drop ((i + 1 - 1) * k)).take k).length ≤ k
      rw [List.length_take]
      omega
    · exact htotal
  · calc (List.range (((matchingRows st (searchOf q)).length + k - 1) / k)).flatMap
          (fun i => pageItems st q k (i + 1))
        = (List.range (((matchingRows st (searchOf q)).length + k - 1) / k)).flatMap
            (fun i => ((matchingRows st (searchOf q)).drop (i * k)).take k) := by
          congr 1
          funext i
          exact hpage i
      _ = matchingRows st (searchOf q) := chunks_concat k hk1 _ _ rfl

/-- Witness for C6: three stored rows paged with pageSize 2. -/
theorem C6_witness :
    1 ≤ 2 ∧ 2 ≤ 100 ∧
    ((∀ i, i < ((matchingRows stPag (searchOf none)).length + 2 - 1) / 2 →
       ∃ resp, list_prejoin stPag (i + 1) 2 none = some resp ∧
         resp.items ≠ [] ∧ resp.items.length ≤ 2 ∧
         resp.total = (matchingRows stPag (searchOf none)).length) ∧
    (List.range (((matchingRows stPag (searchOf none)).length + 2 - 1) / 2)).flatMap
        (fun i => pageItems stPag none 2 (i + 1)) = matchingRows stPag (searchOf none) ∧
    List.Perm (matchingRows stPag (searchOf none))
      (stPag.rows.filter (fun r => rowMatches (searchOf none) r))) :=
  ⟨by omega, by omega, C6_pagination_partition stPag none 2 (by omega) (by omega)⟩

/-! ## C9 -/

/-- Claim C9 (confirmed): the CSV export starts with the fixed header, every
record has exactly the 7 schema columns, and its data records are precisely
the rowToCsv image of the same filtered, same-ordered result set the listing
pages through: any listing page is a window of the export's data records,
and the reported total equals the number of exported data records (the
export is unpaginated). -/
theorem C9_export_matches_listing (st : Store) (q : Option String)
    (page limit : Nat) (resp : ListResponse)
    (h : list_prejoin st page limit q = some resp) :
    (export_prejoin_csv st q).head? = some csvHeader ∧
    (∀ row ∈ export_prejoin_csv st q, row.length = 7) ∧
    resp.items.map rowToCsv =
      ((export_prejoin_csv st q).tail.drop ((page - 1) * limit)).take limit ∧
    resp.total = (export_prejoin_csv st q).tail.length := by
  simp only [list_prejoin] at h
  by_cases hcond : (page < 1 || limit < 1 || 100 < limit) = true
  · rw [if_pos hcond] at h
    exact absurd h (by simp)
  · rw [if_neg hcond] at h
    have hresp := Option.some.inj h
    have hitems : resp.items =
        ((matchingRows st (searchOf q)).drop ((page - 1) * limit)).take limit := by
      rw [← hresp]
    have htot : resp.total =
        (st.rows.filter (fun r => rowMatches (searchOf q) r)).length := by
      rw [← hresp]
    refine ⟨rfl, ?_, ?_, ?_⟩
    · intro row hrow
      simp only [export_prejoin_csv, List.mem_cons] at hrow
      rcases hrow with rfl | hrow
      · rfl
      · obtain ⟨r, _, rfl⟩ := List.mem_map.mp hrow
        rfl
    · rw [hitems]
      simp only [export_prejoin_csv, List.tail_cons]
      rw [List.map_take, List.map_drop]
    · rw [htot]
      simp only [export_prejoin_csv, List.tail_cons, List.length_map]
      exact (sortCreatedDesc_perm _).length_eq.symm

/-- Witness for C9 at the three-row store. -/
theorem C9_witness :
    list_prejoin stPag 1 20 none = some respPag ∧
    ((export_prejoin_csv stPag none).head? = some csvHeader ∧
     (∀ row ∈ export_prejoin_csv stPag none, row.length = 7) ∧
     respPag.items.map rowToCsv =
       ((export_prejoin_csv stPag none).tail.drop ((1 - 1) * 20)).take 20 ∧
     respPag.total = (export_prejoin_csv stPag none).tail.length) :=
  ⟨by decide, C9_export_matches_listing stPag none 1 20 respPag (by decide)⟩
